import Mathlib

/-!
Verification of the `polaris` differential-correction excerpt.

Shallow embedding of `src/polaris/R3BP/_ssdc_periodic_xzplane.py` and of
`get_period` / `get_semiMajorAxis` from `src/polaris/Keplerian/_conicElements.py`.

Modelling conventions:
* Machine floats are embedded as exact rationals `ℚ` (for the correction engine,
  whose claims are about control flow and index structure) and as reals `ℝ`
  (for the Keplerian formulas, which use square roots and π).
* The propagation routine `propagate_cr3bp` and the linear-update solver `ssdc`
  are imported collaborators (from `polaris.Propagator`, outside this excerpt);
  they are abstracted as function parameters `Oracle` and `Solver`.
* The float comparison `la.norm(ferr) < tolDC` is embedded without square
  roots: for `s ≥ 0`, `Real.sqrt s < t ↔ 0 < t ∧ s < t ^ 2`, so the test is
  phrased on the squared Euclidean norm.
* `print` calls carry no data flow; the symmetry warning is modelled as a
  Boolean component of the result so that its independence from the numeric
  output is statable.
* A numpy assignment `state = state0` aliases the buffer, and the item
  assignments `state[0] = ...` mutate that shared buffer in place; the
  embedding therefore exposes the final contents of the caller's `state0`
  buffer (see `state0After`).
* A Python `NameError` (the unbound `xi` on an unrecognized `fix` string) is
  embedded as an `Except.error` carrying the message together with the
  contents of the shared state buffer at the moment the exception escapes.
-/

/-- 6-dimensional state vector (x, y, z, vx, vy, vz), indices as in the source. -/
abbrev V6 : Type := Fin 6 → ℚ

/-- 3-dimensional vector (free variables, residuals). -/
abbrev V3 : Type := Fin 3 → ℚ

/-- 3×3 sensitivity matrix. -/
abbrev M3 : Type := Fin 3 → Fin 3 → ℚ

/-- Output of the propagation oracle `propagate_cr3bp(..., stm_option=True, ...)`:
final state `statef`, final 6×6 state-transition matrix (the source reshapes
`propout["stms"][:,-1]` to (6,6)), and final state derivative `dstatef`. -/
structure PropOut : Type where
  statef : V6
  stm : Fin 6 → Fin 6 → ℚ
  dstatef : V6

/-- The propagation oracle: mass ratio, state, propagation time ↦ output. -/
abbrev Oracle : Type := ℚ → V6 → ℚ → PropOut

/-- The minimum-norm / least-squares update solver `ssdc(xi, ferr, df)`. -/
abbrev Solver : Type := V3 → V3 → M3 → V3

/-- `ferr = np.array([ statef[1], statef[3], statef[5] ])`. -/
def ferrOf (p : PropOut) : V3 :=
  ![p.statef 1, p.statef 3, p.statef 5]

/-- Squared Euclidean norm of a 3-vector. -/
def sqNorm3 (v : V3) : ℚ :=
  v 0 ^ 2 + v 1 ^ 2 + v 2 ^ 2

/-- The test `la.norm(ferr) < tolDC`, phrased on the squared norm
(`Real.sqrt s < t ↔ 0 < t ∧ s < t ^ 2` for `s ≥ 0`). -/
def normLtTol (v : V3) (tol : ℚ) : Bool :=
  decide (0 < tol ∧ sqNorm3 v < tol ^ 2)

/-- `xi = np.array([ state[0], state[4], thalf ])` (the `fix=="z"` branch). -/
def xiZ (state : V6) (thalf : ℚ) : V3 :=
  ![state 0, state 4, thalf]

/-- `xi = np.array([ state[0], state[2], state[4] ])` (the `fix=="period"` branch). -/
def xiPeriod (state : V6) : V3 :=
  ![state 0, state 2, state 4]

/-- The Jacobian `df` assembled in the `fix=="z"` branch (source lines 48-50). -/
def dfZ (p : PropOut) : M3 :=
  ![![p.stm 1 0, p.stm 1 4, p.dstatef 1],
    ![p.stm 3 0, p.stm 3 4, p.dstatef 3],
    ![p.stm 5 0, p.stm 5 4, p.dstatef 5]]

/-- The Jacobian `df` assembled in the `fix=="period"` branch (source lines 52-54). -/
def dfPeriod (p : PropOut) : M3 :=
  ![![p.stm 1 0, p.stm 1 2, p.stm 1 4],
    ![p.stm 3 0, p.stm 3 2, p.stm 3 4],
    ![p.stm 5 0, p.stm 5 2, p.stm 5 4]]

/-- One loop body of `ssdc_periodic_xzplane`: propagate, build `xi`, `ferr`,
`df`, call the solver, write the solver output back into the shared state
buffer / `thalf`, and evaluate the convergence test on this iteration's
`ferr`.  Returns the updated buffer, updated `thalf` and the Boolean value of
`la.norm(ferr) < tolDC`; an unrecognized `fix` string leaves `xi` (and `df`)
unbound so the call `ssdc(xi, ferr, df)` raises `NameError`, embedded as an
error carrying the (untouched) buffer and `thalf`. -/
def ssdcStep (o : Oracle) (sv : Solver) (mu : ℚ) (fix : String) (tolDC : ℚ)
    (state : V6) (thalf : ℚ) : Except (String × V6 × ℚ) (V6 × ℚ × Bool) :=
  let propout := o mu state thalf
  let ferr := ferrOf propout
  if fix = "z" then
    let xii := sv (xiZ state thalf) ferr (dfZ propout)
    let state' := Function.update (Function.update state 0 (xii 0)) 4 (xii 1)
    .ok (state', xii 2, normLtTol ferr tolDC)
  else if fix = "period" then
    let xii := sv (xiPeriod state) ferr (dfPeriod propout)
    let state' :=
      Function.update (Function.update (Function.update state 0 (xii 0)) 2 (xii 1)) 4 (xii 2)
    .ok (state', thalf, normLtTol ferr tolDC)
  else
    .error ("NameError: name 'xi' is not defined", state, thalf)

/-- The iteration `for iteration in range(iter_max)` of `ssdc_periodic_xzplane`,
recursing on the remaining iteration budget.  On convergence the loop breaks
with `conv_flag = 1`; on budget exhaustion it falls through with the last
computed buffer and `thalf` and `conv_flag = 0`; the return value is
`(thalf*2, state, conv_flag)`. -/
def ssdcLoop (o : Oracle) (sv : Solver) (mu : ℚ) (fix : String) (tolDC : ℚ) :
    ℕ → V6 → ℚ → Except (String × V6 × ℚ) (ℚ × V6 × ℕ)
  | 0, state, thalf => .ok (thalf * 2, state, 0)
  | Nat.succ n, state, thalf =>
    match ssdcStep o sv mu fix tolDC state thalf with
    | .error e => .error e
    | .ok (state', thalf', conv) =>
      if conv then .ok (thalf' * 2, state', 1)
      else ssdcLoop o sv mu fix tolDC n state' thalf'

/-- `ssdc_periodic_xzplane(mu, state0, period0, fix, tolDC, iter_max)`.
The first component is the Boolean of the symmetry test
`np.abs(state0[1]) > 1e-9` (whose only effect is printing a warning); the
second is the numeric outcome `(thalf*2, state, conv_flag)` of the loop
started from `state, thalf = state0, period0/2`. -/
def ssdc_periodic_xzplane (o : Oracle) (sv : Solver) (mu : ℚ) (state0 : V6)
    (period0 : ℚ) (fix : String) (tolDC : ℚ) (iter_max : ℕ) :
    Bool × Except (String × V6 × ℚ) (ℚ × V6 × ℕ) :=
  (decide ((1 : ℚ) / 10 ^ 9 < |state0 1|),
   ssdcLoop o sv mu fix tolDC iter_max state0 (period0 / 2))

/-- Contents of the caller's `state0` array after `ssdc_periodic_xzplane`
returns or raises.  `state, thalf = state0, period0/2` binds `state` to the
same numpy buffer as `state0`, and the item assignments `state[0] = ...`
write through that alias, so after the call the caller's array holds the
engine's final working state (also when a `NameError` escapes). -/
def state0After (o : Oracle) (sv : Solver) (mu : ℚ) (state0 : V6)
    (period0 : ℚ) (fix : String) (tolDC : ℚ) (iter_max : ℕ) : V6 :=
  match (ssdc_periodic_xzplane o sv mu state0 period0 fix tolDC iter_max).2 with
  | .ok (_, s, _) => s
  | .error (_, s, _) => s

/-- The Boolean of this iteration's convergence test `la.norm(ferr) < tolDC`,
as a function of the pre-update iterate `x = (state, thalf)`. -/
def passes (o : Oracle) (mu tolDC : ℚ) (x : V6 × ℚ) : Bool :=
  normLtTol (ferrOf (o mu x.1 x.2)) tolDC

/-- The `k`-th iterate of the loop body, ignoring the convergence break:
`iterN ... k (state, thalf)` is the shared buffer and `thalf` after `k`
complete loop bodies, or `none` if a `NameError` is raised on the way. -/
def iterN (o : Oracle) (sv : Solver) (mu : ℚ) (fix : String) (tolDC : ℚ) :
    ℕ → V6 × ℚ → Option (V6 × ℚ)
  | 0, x => some x
  | Nat.succ n, x =>
    match ssdcStep o sv mu fix tolDC x.1 x.2 with
    | .error _ => none
    | .ok (st', th', _) => iterN o sv mu fix tolDC n (st', th')

/-- `noPassRun ... n x = true` iff none of the first `n` iterates reached from
`x` satisfies the convergence test (following the loop's own trajectory). -/
def noPassRun (o : Oracle) (sv : Solver) (mu : ℚ) (fix : String) (tolDC : ℚ) :
    ℕ → V6 × ℚ → Bool
  | 0, _ => true
  | Nat.succ n, x =>
    !passes o mu tolDC x &&
      (match ssdcStep o sv mu fix tolDC x.1 x.2 with
       | .error _ => true
       | .ok (st', th', _) => noPassRun o sv mu fix tolDC n (st', th'))

/-- The residual rows of the spec: final-state components {1, 3, 5}
(the y, vx, vz equations). -/
def rowsIdx : Fin 3 → Fin 6 :=
  ![1, 3, 5]

/-- The sensitivity matrix as the spec words it for `FixZ`: rows indexed by
{1,3,5}, columns {0,4} of the state-transition matrix, plus a third column
equal to the corresponding component of the final-state time derivative. -/
def dfFixZ_spec (p : PropOut) : M3 :=
  fun i => ![p.stm (rowsIdx i) 0, p.stm (rowsIdx i) 4, p.dstatef (rowsIdx i)]

/-- The sensitivity matrix as the spec words it for `FixPeriod`: rows {1,3,5},
columns {0,2,4} of the state-transition matrix. -/
def dfFixPeriod_spec (p : PropOut) : M3 :=
  fun i => ![p.stm (rowsIdx i) 0, p.stm (rowsIdx i) 2, p.stm (rowsIdx i) 4]

/-- A concrete propagation oracle for evaluations: the final state's
y-component echoes the initial x-component; everything else is zero. -/
def oW : Oracle := fun _ st _ =>
  { statef := ![0, st 0, 0, 0, 0, 0], stm := fun _ _ => 0, dstatef := fun _ => 0 }

/-- A concrete solver for evaluations: zeroes the first free variable. -/
def svW : Solver := fun xi _ _ =>
  ![0, xi 1, xi 2]

/-- A concrete solver that returns the free variables unchanged. -/
def svId : Solver := fun xi _ _ =>
  xi

/-- A solver that agrees with `svW` exactly when the first free variable is 5
and differs everywhere else. -/
def svA : Solver := fun xi _ _ =>
  if xi 0 = 5 then ![0, xi 1, xi 2] else ![9, 9, 9]

/-- A solver that agrees with `svW` exactly when the first residual entry is 5
and differs everywhere else. -/
def svR : Solver := fun xi f _ =>
  if f 0 = 5 then ![0, xi 1, xi 2] else ![9, 9, 9]

/-- A concrete initial state. -/
def stW : V6 :=
  ![5, 0, 0, 0, 0, 0]

/-- The zero state. -/
def stZero : V6 := fun _ => 0

/-- A concrete initial state with y-component 1e-6, above the 1e-9 symmetry
threshold. -/
def stY : V6 :=
  ![0, 1 / 10 ^ 6, 0, 0, 0, 0]

/-- A concrete propagation output with distinguishable entries. -/
def pW : PropOut :=
  { statef := ![0, 1, 2, 3, 4, 5],
    stm := fun i j => (i.1 : ℚ) * 10 + (j.1 : ℚ),
    dstatef := ![50, 40, 30, 20, 10, 0] }

/-- `np.cross` of two 3-vectors. -/
def cross3 (a b : Fin 3 → ℝ) : Fin 3 → ℝ :=
  ![a 1 * b 2 - a 2 * b 1, a 2 * b 0 - a 0 * b 2, a 0 * b 1 - a 1 * b 0]

/-- `la.norm` of a 3-vector. -/
noncomputable def norm3 (v : Fin 3 → ℝ) : ℝ :=
  Real.sqrt (v 0 ^ 2 + v 1 ^ 2 + v 2 ^ 2)

/-- `get_eccentricity(state, mu)`: the eccentricity vector
`(1/mu) * np.cross(v,h) - r/la.norm(r)` with `h = np.cross(r,v)`. -/
noncomputable def get_eccentricity (state : Fin 6 → ℝ) (mu : ℝ) : Fin 3 → ℝ :=
  let r : Fin 3 → ℝ := ![state 0, state 1, state 2]
  let v : Fin 3 → ℝ := ![state 3, state 4, state 5]
  let h := cross3 r v
  fun i => (1 / mu) * cross3 v h i - r i / norm3 r

/-- `get_semiMajorAxis(state, mu) = h**2 / (mu*(1 - e**2))` with
`h = la.norm(np.cross(r,v))` and `e = la.norm(get_eccentricity(state, mu))`. -/
noncomputable def get_semiMajorAxis (state : Fin 6 → ℝ) (mu : ℝ) : ℝ :=
  let r : Fin 3 → ℝ := ![state 0, state 1, state 2]
  let v : Fin 3 → ℝ := ![state 3, state 4, state 5]
  let h := norm3 (cross3 r v)
  let e := norm3 (get_eccentricity state mu)
  h ^ 2 / (mu * (1 - e ^ 2))

/-- `get_period(state, mu)`: `-1` if the semi-major axis is negative,
`2*np.pi*np.sqrt(a**3/mu)` otherwise. -/
noncomputable def get_period (state : Fin 6 → ℝ) (mu : ℝ) : ℝ :=
  let a := get_semiMajorAxis state mu
  if a < 0 then -1 else 2 * Real.pi * Real.sqrt (a ^ 3 / mu)

/-- A concrete hyperbolic (negative semi-major axis) two-body state:
r = (1,0,0), v = (0,2,0) with mu = 1. -/
def stK : Fin 6 → ℝ :=
  ![1, 0, 0, 0, 2, 0]

instance exceptDecEq {e a : Type} [DecidableEq e] [DecidableEq a] : DecidableEq (Except e a) :=
  fun x y =>
    match x, y with
    | .ok u, .ok v => if h : u = v then .isTrue (by rw [h]) else .isFalse (by simp [h])
    | .error u, .error v => if h : u = v then .isTrue (by rw [h]) else .isFalse (by simp [h])
    | .ok _, .error _ => .isFalse (by simp)
    | .error _, .ok _ => .isFalse (by simp)

instance optionDecEq {a : Type} [DecidableEq a] : DecidableEq (Option a) :=
  fun x y =>
    match x, y with
    | none, none => .isTrue rfl
    | some u, some v => if h : u = v then .isTrue (by rw [h]) else .isFalse (by simp [h])
    | none, some _ => .isFalse (by simp)
    | some _, none => .isFalse (by simp)

theorem ssdcStep_z (o : Oracle) (sv : Solver) (mu tolDC : ℚ) (st : V6) (th : ℚ) :
    ssdcStep o sv mu "z" tolDC st th =
      .ok (Function.update (Function.update st 0
             (sv (xiZ st th) (ferrOf (o mu st th)) (dfZ (o mu st th)) 0)) 4
             (sv (xiZ st th) (ferrOf (o mu st th)) (dfZ (o mu st th)) 1),
           sv (xiZ st th) (ferrOf (o mu st th)) (dfZ (o mu st th)) 2,
           normLtTol (ferrOf (o mu st th)) tolDC) := rfl

theorem ssdcStep_period (o : Oracle) (sv : Solver) (mu tolDC : ℚ) (st : V6) (th : ℚ) :
    ssdcStep o sv mu "period" tolDC st th =
      .ok (Function.update (Function.update (Function.update st 0
             (sv (xiPeriod st) (ferrOf (o mu st th)) (dfPeriod (o mu st th)) 0)) 2
             (sv (xiPeriod st) (ferrOf (o mu st th)) (dfPeriod (o mu st th)) 1)) 4
             (sv (xiPeriod st) (ferrOf (o mu st th)) (dfPeriod (o mu st th)) 2),
           th, normLtTol (ferrOf (o mu st th)) tolDC) := by
  unfold ssdcStep
  rw [if_neg (by decide), if_pos rfl]

theorem ssdcStep_invalid (o : Oracle) (sv : Solver) (mu tolDC : ℚ) (fix : String)
    (st : V6) (th : ℚ) (h1 : fix ≠ "z") (h2 : fix ≠ "period") :
    ssdcStep o sv mu fix tolDC st th =
      .error ("NameError: name 'xi' is not defined", st, th) := by
  unfold ssdcStep
  rw [if_neg h1, if_neg h2]

theorem passes_def (o : Oracle) (mu tolDC : ℚ) (st : V6) (th : ℚ) :
    passes o mu tolDC (st, th) = normLtTol (ferrOf (o mu st th)) tolDC := rfl

theorem ssdcStep_conv (o : Oracle) (sv : Solver) (mu tolDC : ℚ) (fix : String)
    (st : V6) (th : ℚ) (st' : V6) (th' : ℚ) (c : Bool)
    (h : ssdcStep o sv mu fix tolDC st th = .ok (st', th', c)) :
    c = passes o mu tolDC (st, th) := by
  unfold ssdcStep at h
  split at h
  · simp only [Except.ok.injEq, Prod.mk.injEq] at h
    exact h.2.2.symm
  · split at h
    · simp only [Except.ok.injEq, Prod.mk.injEq] at h
      exact h.2.2.symm
    · exact Except.noConfusion h

theorem ssdcStep_valid_ok (o : Oracle) (sv : Solver) (mu tolDC : ℚ) (fix : String)
    (st : V6) (th : ℚ) (h : fix = "z" ∨ fix = "period") :
    ∃ st' th' c, ssdcStep o sv mu fix tolDC st th = .ok (st', th', c) := by
  rcases h with h | h <;> subst h
  · exact ⟨_, _, _, ssdcStep_z o sv mu tolDC st th⟩
  · exact ⟨_, _, _, ssdcStep_period o sv mu tolDC st th⟩

theorem ssdcLoop_zero (o : Oracle) (sv : Solver) (mu tolDC : ℚ) (fix : String)
    (st : V6) (th : ℚ) :
    ssdcLoop o sv mu fix tolDC 0 st th = .ok (th * 2, st, 0) := rfl

theorem ssdcLoop_succ_ok (o : Oracle) (sv : Solver) (mu tolDC : ℚ) (fix : String)
    (n : ℕ) (st : V6) (th : ℚ) (st' : V6) (th' : ℚ) (c : Bool)
    (h : ssdcStep o sv mu fix tolDC st th = .ok (st', th', c)) :
    ssdcLoop o sv mu fix tolDC (n + 1) st th =
      if c then .ok (th' * 2, st', 1) else ssdcLoop o sv mu fix tolDC n st' th' := by
  simp only [ssdcLoop, h]

theorem ssdcLoop_succ_err (o : Oracle) (sv : Solver) (mu tolDC : ℚ) (fix : String)
    (n : ℕ) (st : V6) (th : ℚ) (e : String × V6 × ℚ)
    (h : ssdcStep o sv mu fix tolDC st th = .error e) :
    ssdcLoop o sv mu fix tolDC (n + 1) st th = .error e := by
  simp only [ssdcLoop, h]

theorem iterN_zero (o : Oracle) (sv : Solver) (mu tolDC : ℚ) (fix : String)
    (x : V6 × ℚ) : iterN o sv mu fix tolDC 0 x = some x := rfl

theorem iterN_succ_ok (o : Oracle) (sv : Solver) (mu tolDC : ℚ) (fix : String)
    (k : ℕ) (st : V6) (th : ℚ) (st' : V6) (th' : ℚ) (c : Bool)
    (h : ssdcStep o sv mu fix tolDC st th = .ok (st', th', c)) :
    iterN o sv mu fix tolDC (k + 1) (st, th) = iterN o sv mu fix tolDC k (st', th') := by
  simp only [iterN, h]

theorem noPassRun_succ_ok (o : Oracle) (sv : Solver) (mu tolDC : ℚ) (fix : String)
    (k : ℕ) (st : V6) (th : ℚ) (st' : V6) (th' : ℚ) (c : Bool)
    (h : ssdcStep o sv mu fix tolDC st th = .ok (st', th', c)) :
    noPassRun o sv mu fix tolDC (k + 1) (st, th) =
      (!passes o mu tolDC (st, th) && noPassRun o sv mu fix tolDC k (st', th')) := by
  simp only [noPassRun, h]

theorem loop_period_thalf (o : Oracle) (sv : Solver) (mu tolDC : ℚ) :
    ∀ (n : ℕ) (st : V6) (th : ℚ),
      ∃ s f, ssdcLoop o sv mu "period" tolDC n st th = .ok (th * 2, s, f) := by
  intro n
  induction n with
  | zero => exact fun st th => ⟨st, 0, rfl⟩
  | succ n ih =>
    intro st th
    rcases ssdcStep_valid_ok o sv mu tolDC "period" st th (Or.inr rfl) with ⟨st', th', c, hstep⟩
    have hth : th' = th := by
      have h2 := ssdcStep_period o sv mu tolDC st th
      rw [hstep] at h2
      simp only [Except.ok.injEq, Prod.mk.injEq] at h2
      exact h2.2.1
    rw [hth] at hstep
    rw [ssdcLoop_succ_ok o sv mu tolDC "period" n st th st' th c hstep]
    by_cases hc : c = true
    · subst hc
      exact ⟨st', 1, by rw [if_pos rfl]⟩
    · rw [Bool.not_eq_true] at hc
      subst hc
      rw [if_neg (by simp)]
      exact ih st' th

/-- C5: with `iter_max = 0` the engine performs no propagation and no correction:
for every propagation oracle and every solver the call returns immediately with
convergence flag 0, the initial state unmodified, and period equal to the input
`period0`. -/
theorem C5_iter_max_zero_immediate_return (o : Oracle) (sv : Solver) (mu : ℚ)
    (state0 : V6) (period0 : ℚ) (fix : String) (tolDC : ℚ) :
    (ssdc_periodic_xzplane o sv mu state0 period0 fix tolDC 0).2 =
      .ok (period0, state0, 0) := by
  show Except.ok (period0 / 2 * 2, state0, 0) = _
  rw [div_mul_cancel₀ period0 (two_ne_zero)]

/-- C2: with `fix="z"` each iteration reads xi = (x0, vy0, thalf), hands it to the
solver, and writes the solver output back into exactly those three slots, leaving
the y, z, vx, vz state components unchanged; with `fix="period"` xi = (x0, z0, vy0)
is read and written back, leaving y, vx, vz and the half-period unchanged, so the
returned period equals the input `period0` exactly. -/
theorem C2_free_variable_read_write (o : Oracle) (sv : Solver) (mu tolDC : ℚ)
    (st : V6) (th : ℚ) :
    (∃ st' : V6,
      ssdcStep o sv mu "z" tolDC st th =
        .ok (st', sv (xiZ st th) (ferrOf (o mu st th)) (dfZ (o mu st th)) 2,
             normLtTol (ferrOf (o mu st th)) tolDC) ∧
      st' 0 = sv (xiZ st th) (ferrOf (o mu st th)) (dfZ (o mu st th)) 0 ∧
      st' 4 = sv (xiZ st th) (ferrOf (o mu st th)) (dfZ (o mu st th)) 1 ∧
      st' 1 = st 1 ∧ st' 2 = st 2 ∧ st' 3 = st 3 ∧ st' 5 = st 5) ∧
    (∃ st' : V6,
      ssdcStep o sv mu "period" tolDC st th =
        .ok (st', th, normLtTol (ferrOf (o mu st th)) tolDC) ∧
      st' 0 = sv (xiPeriod st) (ferrOf (o mu st th)) (dfPeriod (o mu st th)) 0 ∧
      st' 2 = sv (xiPeriod st) (ferrOf (o mu st th)) (dfPeriod (o mu st th)) 1 ∧
      st' 4 = sv (xiPeriod st) (ferrOf (o mu st th)) (dfPeriod (o mu st th)) 2 ∧
      st' 1 = st 1 ∧ st' 3 = st 3 ∧ st' 5 = st 5) ∧
    (∀ (state0 : V6) (period0 : ℚ) (n : ℕ),
      ∃ s f, (ssdc_periodic_xzplane o sv mu state0 period0 "period" tolDC n).2 =
        .ok (period0, s, f)) := by
  refine ⟨⟨_, ssdcStep_z o sv mu tolDC st th, ?_, ?_, ?_, ?_, ?_, ?_⟩,
          ⟨_, ssdcStep_period o sv mu tolDC st th, ?_, ?_, ?_, ?_, ?_, ?_⟩, ?_⟩
  · simp [Function.update]
  · simp [Function.update]
  · simp [Function.update]
  · simp [Function.update]
  · simp [Function.update]
  · simp [Function.update]
  · simp [Function.update]
  · simp [Function.update]
  · simp [Function.update]
  · simp [Function.update]
  · simp [Function.update]
  · simp [Function.update]
  · intro state0 period0 n
    rcases loop_period_thalf o sv mu tolDC n state0 (period0 / 2) with ⟨s, f, hl⟩
    refine ⟨s, f, ?_⟩
    show ssdcLoop o sv mu "period" tolDC n state0 (period0 / 2) = _
    rw [hl, div_mul_cancel₀ period0 (two_ne_zero)]

/-- C3: the 3×3 sensitivity matrix `df` has rows taken from final-state
components {1,3,5} (the y, vx, vz equations); with `fix="z"` its first two
columns are state-transition-matrix entries at columns {0,4} and its third
column is components {1,3,5} of the final-state time derivative; with
`fix="period"` its three columns are state-transition-matrix columns {0,2,4};
and each iteration consults the solver exactly at that matrix. -/
theorem C3_sensitivity_matrix_shape :
    (∀ p : PropOut, dfZ p = dfFixZ_spec p) ∧
    (∀ p : PropOut, dfPeriod p = dfFixPeriod_spec p) ∧
    (∀ (o : Oracle) (sv sv' : Solver) (mu tolDC : ℚ) (st : V6) (th : ℚ),
       sv (xiZ st th) (ferrOf (o mu st th)) (dfFixZ_spec (o mu st th)) =
         sv' (xiZ st th) (ferrOf (o mu st th)) (dfFixZ_spec (o mu st th)) →
       ssdcStep o sv mu "z" tolDC st th = ssdcStep o sv' mu "z" tolDC st th) ∧
    (∀ (o : Oracle) (sv sv' : Solver) (mu tolDC : ℚ) (st : V6) (th : ℚ),
       sv (xiPeriod st) (ferrOf (o mu st th)) (dfFixPeriod_spec (o mu st th)) =
         sv' (xiPeriod st) (ferrOf (o mu st th)) (dfFixPeriod_spec (o mu st th)) →
       ssdcStep o sv mu "period" tolDC st th = ssdcStep o sv' mu "period" tolDC st th) := by
  have hz : ∀ p : PropOut, dfZ p = dfFixZ_spec p := by
    intro p
    funext i
    fin_cases i <;> rfl
  have hp : ∀ p : PropOut, dfPeriod p = dfFixPeriod_spec p := by
    intro p
    funext i
    fin_cases i <;> rfl
  refine ⟨hz, hp, ?_, ?_⟩
  · intro o sv sv' mu tolDC st th h
    rw [ssdcStep_z, ssdcStep_z, hz, h]
  · intro o sv sv' mu tolDC st th h
    rw [ssdcStep_period, ssdcStep_period, hp, h]

/-- C3 witness: the Jacobian-shape equalities and solver-call claims at a
concrete oracle, solvers and state. -/
theorem C3_sensitivity_matrix_shape_witness :
    dfZ pW = dfFixZ_spec pW ∧
    ssdcStep oW svW 1 "z" 1 stW 1 = ssdcStep oW svA 1 "z" 1 stW 1 ∧
    ssdcStep oW svW 1 "period" 1 stW 1 = ssdcStep oW svA 1 "period" 1 stW 1 :=
  ⟨C3_sensitivity_matrix_shape.1 pW,
   C3_sensitivity_matrix_shape.2.2.1 oW svW svA 1 1 stW 1 (by decide),
   C3_sensitivity_matrix_shape.2.2.2 oW svW svA 1 1 stW 1 (by decide)⟩

/-- C1: whenever the run reports converged (flag 1), the returned state and
half-period are exactly one Newton update past an iterate whose propagation
residual `ferr` (evaluated before that update was written back) satisfied the
tolerance test. -/
theorem C1_converged_is_one_update_past_passing_residual (o : Oracle)
    (sv : Solver) (mu : ℚ) (fix : String) (tolDC : ℚ) (n : ℕ) (st : V6)
    (th p : ℚ) (s : V6)
    (h : ssdcLoop o sv mu fix tolDC n st th = .ok (p, s, 1)) :
    ∃ k x st' th', k < n ∧ iterN o sv mu fix tolDC k (st, th) = some x ∧
      normLtTol (ferrOf (o mu x.1 x.2)) tolDC = true ∧
      ssdcStep o sv mu fix tolDC x.1 x.2 = .ok (st', th', true) ∧
      s = st' ∧ p = th' * 2 := by
  induction n generalizing st th with
  | zero =>
    rw [ssdcLoop_zero] at h
    simp only [Except.ok.injEq, Prod.mk.injEq] at h
    exact absurd h.2.2 (by decide)
  | succ n ih =>
    rcases hstep : ssdcStep o sv mu fix tolDC st th with e | ⟨st', th', c⟩
    · rw [ssdcLoop_succ_err o sv mu tolDC fix n st th e hstep] at h
      exact Except.noConfusion h
    · rw [ssdcLoop_succ_ok o sv mu tolDC fix n st th st' th' c hstep] at h
      by_cases hc : c = true
      · subst hc
        rw [if_pos rfl] at h
        simp only [Except.ok.injEq, Prod.mk.injEq] at h
        obtain ⟨hp, hs, -⟩ := h
        have hcp := ssdcStep_conv o sv mu tolDC fix st th st' th' true hstep
        refine ⟨0, (st, th), st', th', Nat.succ_pos n, rfl, hcp.symm, hstep,
          hs.symm, hp.symm⟩
      · rw [Bool.not_eq_true] at hc
        subst hc
        rw [if_neg (by simp)] at h
        obtain ⟨k, x, st'', th'', hk, hit, hpass, hstep', hs, hp⟩ := ih st' th' h
        refine ⟨k + 1, x, st'', th'', Nat.succ_lt_succ hk, ?_, hpass, hstep', hs, hp⟩
        rw [iterN_succ_ok o sv mu tolDC fix k st th st' th' false hstep]
        exact hit

unseal Rat.inv Rat.mul Rat.add Rat.sub in
/-- C1 witness: a concrete converging run. -/
theorem C1_converged_is_one_update_past_passing_residual_witness :
    ∃ k x st' th', k < 2 ∧ iterN oW svW 1 "z" 1 k (stW, 1) = some x ∧
      normLtTol (ferrOf (oW 1 x.1 x.2)) 1 = true ∧
      ssdcStep oW svW 1 "z" 1 x.1 x.2 = .ok (st', th', true) ∧
      stZero = st' ∧ (2 : ℚ) = th' * 2 :=
  C1_converged_is_one_update_past_passing_residual oW svW 1 "z" 1 2 stW 1 2
    stZero (by decide)

theorem loop_flag_zero_or_one (o : Oracle) (sv : Solver) (mu tolDC : ℚ)
    (fix : String) : ∀ (n : ℕ) (st : V6) (th p : ℚ) (s : V6) (f : ℕ),
    ssdcLoop o sv mu fix tolDC n st th = .ok (p, s, f) → f = 0 ∨ f = 1 := by
  intro n
  induction n with
  | zero =>
    intro st th p s f h
    rw [ssdcLoop_zero] at h
    simp only [Except.ok.injEq, Prod.mk.injEq] at h
    exact Or.inl h.2.2.symm
  | succ n ih =>
    intro st th p s f h
    rcases hstep : ssdcStep o sv mu fix tolDC st th with e | ⟨st', th', c⟩
    · rw [ssdcLoop_succ_err o sv mu tolDC fix n st th e hstep] at h
      exact Except.noConfusion h
    · rw [ssdcLoop_succ_ok o sv mu tolDC fix n st th st' th' c hstep] at h
      by_cases hc : c = true
      · subst hc
        rw [if_pos rfl] at h
        simp only [Except.ok.injEq, Prod.mk.injEq] at h
        exact Or.inr h.2.2.symm
      · rw [Bool.not_eq_true] at hc
        subst hc
        rw [if_neg (by simp)] at h
        exact ih st' th' p s f h

theorem loop_flag_one_first_passing (o : Oracle) (sv : Solver) (mu tolDC : ℚ)
    (fix : String) : ∀ (n : ℕ) (st : V6) (th p : ℚ) (s : V6),
    ssdcLoop o sv mu fix tolDC n st th = .ok (p, s, 1) →
    ∃ k, k < n ∧ noPassRun o sv mu fix tolDC k (st, th) = true ∧
      ∃ x, iterN o sv mu fix tolDC k (st, th) = some x ∧
        passes o mu tolDC x = true := by
  intro n
  induction n with
  | zero =>
    intro st th p s h
    rw [ssdcLoop_zero] at h
    simp only [Except.ok.injEq, Prod.mk.injEq] at h
    exact absurd h.2.2 (by decide)
  | succ n ih =>
    intro st th p s h
    rcases hstep : ssdcStep o sv mu fix tolDC st th with e | ⟨st', th', c⟩
    · rw [ssdcLoop_succ_err o sv mu tolDC fix n st th e hstep] at h
      exact Except.noConfusion h
    · rw [ssdcLoop_succ_ok o sv mu tolDC fix n st th st' th' c hstep] at h
      have hcp := ssdcStep_conv o sv mu tolDC fix st th st' th' c hstep
      by_cases hc : c = true
      · subst hc
        exact ⟨0, Nat.succ_pos n, rfl, (st, th), rfl, hcp.symm⟩
      · rw [Bool.not_eq_true] at hc
        subst hc
        rw [if_neg (by simp)] at h
        obtain ⟨k, hk, hnp, x, hit, hpass⟩ := ih st' th' p s h
        refine ⟨k + 1, Nat.succ_lt_succ hk, ?_, x, ?_, hpass⟩
        · rw [noPassRun_succ_ok o sv mu tolDC fix k st th st' th' false hstep]
          rw [← hcp, hnp]
          rfl
        · rw [iterN_succ_ok o sv mu tolDC fix k st th st' th' false hstep]
          exact hit

theorem loop_exhausted_returns_last (o : Oracle) (sv : Solver) (mu tolDC : ℚ)
    (fix : String) : ∀ (n : ℕ) (st : V6) (th : ℚ),
    noPassRun o sv mu fix tolDC n (st, th) = true →
    ∀ x, iterN o sv mu fix tolDC n (st, th) = some x →
      ssdcLoop o sv mu fix tolDC n st th = .ok (x.2 * 2, x.1, 0) := by
  intro n
  induction n with
  | zero =>
    intro st th _ x hx
    rw [iterN_zero] at hx
    injection hx with hx
    rw [ssdcLoop_zero, ← hx]
  | succ n ih =>
    intro st th hnp x hx
    rcases hstep : ssdcStep o sv mu fix tolDC st th with e | ⟨st', th', c⟩
    · rw [show iterN o sv mu fix tolDC (n + 1) (st, th) = none by
            simp only [iterN, hstep]] at hx
      exact Option.noConfusion hx
    · rw [noPassRun_succ_ok o sv mu tolDC fix n st th st' th' c hstep] at hnp
      rw [iterN_succ_ok o sv mu tolDC fix n st th st' th' c hstep] at hx
      rw [Bool.and_eq_true, Bool.not_eq_true'] at hnp
      have hcp := ssdcStep_conv o sv mu tolDC fix st th st' th' c hstep
      rw [ssdcLoop_succ_ok o sv mu tolDC fix n st th st' th' c hstep]
      rw [hcp, hnp.1, if_neg (by simp)]
      exact ih st' th' hnp.2 x hx

theorem loop_valid_fix_total (o : Oracle) (sv : Solver) (mu tolDC : ℚ)
    (fix : String) (hfix : fix = "z" ∨ fix = "period") :
    ∀ (n : ℕ) (st : V6) (th : ℚ),
      ∃ p s f, ssdcLoop o sv mu fix tolDC n st th = .ok (p, s, f) := by
  intro n
  induction n with
  | zero => exact fun st th => ⟨th * 2, st, 0, ssdcLoop_zero o sv mu tolDC fix st th⟩
  | succ n ih =>
    intro st th
    rcases ssdcStep_valid_ok o sv mu tolDC fix st th hfix with ⟨st', th', c, hstep⟩
    rw [ssdcLoop_succ_ok o sv mu tolDC fix n st th st' th' c hstep]
    by_cases hc : c = true
    · subst hc
      exact ⟨th' * 2, st', 1, by rw [if_pos rfl]⟩
    · rw [Bool.not_eq_true] at hc
      subst hc
      rw [if_neg (by simp)]
      exact ih st' th'

/-- C4: the convergence flag is 0 or 1 and is set at most once — it becomes 1
exactly at the first iteration whose residual norm drops below `tolDC`, at
which point iteration stops; if all `iter_max` iterations elapse without the
residual test passing, the run terminates normally (for the two recognized
modes no error is possible) with the flag still 0 and the last computed state
and half-period returned. -/
theorem C4_flag_once_first_pass_or_exhaustion :
    (∀ (o : Oracle) (sv : Solver) (mu tolDC : ℚ) (fix : String) (n : ℕ)
       (st : V6) (th p : ℚ) (s : V6) (f : ℕ),
       ssdcLoop o sv mu fix tolDC n st th = .ok (p, s, f) → f = 0 ∨ f = 1) ∧
    (∀ (o : Oracle) (sv : Solver) (mu tolDC : ℚ) (fix : String) (n : ℕ)
       (st : V6) (th p : ℚ) (s : V6),
       ssdcLoop o sv mu fix tolDC n st th = .ok (p, s, 1) →
       ∃ k, k < n ∧ noPassRun o sv mu fix tolDC k (st, th) = true ∧
         ∃ x, iterN o sv mu fix tolDC k (st, th) = some x ∧
           passes o mu tolDC x = true) ∧
    (∀ (o : Oracle) (sv : Solver) (mu tolDC : ℚ) (fix : String) (n : ℕ)
       (st : V6) (th : ℚ),
       noPassRun o sv mu fix tolDC n (st, th) = true →
       ∀ x, iterN o sv mu fix tolDC n (st, th) = some x →
         ssdcLoop o sv mu fix tolDC n st th = .ok (x.2 * 2, x.1, 0)) ∧
    (∀ (o : Oracle) (sv : Solver) (mu tolDC : ℚ) (fix : String),
       fix = "z" ∨ fix = "period" →
       ∀ (n : ℕ) (st : V6) (th : ℚ),
         ∃ p s f, ssdcLoop o sv mu fix tolDC n st th = .ok (p, s, f)) :=
  ⟨fun o sv mu tolDC fix n st th p s f h =>
     loop_flag_zero_or_one o sv mu tolDC fix n st th p s f h,
   fun o sv mu tolDC fix n st th p s h =>
     loop_flag_one_first_passing o sv mu tolDC fix n st th p s h,
   fun o sv mu tolDC fix n st th hnp x hx =>
     loop_exhausted_returns_last o sv mu tolDC fix n st th hnp x hx,
   fun o sv mu tolDC fix hfix n st th =>
     loop_valid_fix_total o sv mu tolDC fix hfix n st th⟩

unseal Rat.inv Rat.mul Rat.add Rat.sub in
/-- C4 witness: a concrete converging run (flag 1 at the first passing
iteration), a concrete exhausted run (flag 0, last iterate returned), and a
valid-mode total run. -/
theorem C4_flag_once_first_pass_or_exhaustion_witness :
    ((0 : ℕ) = 0 ∨ (0 : ℕ) = 1) ∧
    (∃ k, k < 2 ∧ noPassRun oW svW 1 "z" 1 k (stW, 1) = true ∧
      ∃ x, iterN oW svW 1 "z" 1 k (stW, 1) = some x ∧
        passes oW 1 1 x = true) ∧
    ssdcLoop oW svId 1 "z" 1 2 stW 1 = .ok ((1 : ℚ) * 2, stW, 0) ∧
    (∃ p s f, ssdcLoop oW svId 1 "z" 1 2 stW 1 = .ok (p, s, f)) :=
  ⟨C4_flag_once_first_pass_or_exhaustion.1 oW svId 1 1 "z" 2 stW 1 2 stW 0
     (by decide),
   C4_flag_once_first_pass_or_exhaustion.2.1 oW svW 1 1 "z" 2 stW 1 2 stZero
     (by decide),
   C4_flag_once_first_pass_or_exhaustion.2.2.1 oW svId 1 1 "z" 2 stW 1
     (by decide) (stW, 1) (by decide),
   C4_flag_once_first_pass_or_exhaustion.2.2.2 oW svId 1 1 "z" (Or.inl rfl)
     2 stW 1⟩

unseal Rat.inv Rat.mul Rat.add Rat.sub in
/-- C6 counterexample: a concrete run (fix="period", one iteration) after which
the caller's `state0` buffer no longer holds the values it had at entry — the
in-place writes `state[0] = ...` go through the alias created by
`state, thalf = state0, period0/2`. -/
theorem C6_caller_buffer_mutated_counterexample :
    ¬ (state0After oW svW 1 stW 2 "period" 1 1 = stW) := by
  decide

/-- C6 (amended): a correction run works in place on the caller's `state0`
buffer: after `ssdc_periodic_xzplane` returns, the caller's array holds the
engine's final working state — equal to the state component of the returned
triple on normal return, and to the buffer contents at the raise when a
`NameError` escapes — rather than its entry values. -/
theorem C6_state0_aliased_holds_final_state (o : Oracle) (sv : Solver)
    (mu : ℚ) (state0 : V6) (period0 : ℚ) (fix : String) (tolDC : ℚ) (n : ℕ) :
    (∀ (p : ℚ) (s : V6) (f : ℕ),
       (ssdc_periodic_xzplane o sv mu state0 period0 fix tolDC n).2 = .ok (p, s, f) →
       state0After o sv mu state0 period0 fix tolDC n = s) ∧
    (∀ (msg : String) (s : V6) (t : ℚ),
       (ssdc_periodic_xzplane o sv mu state0 period0 fix tolDC n).2 = .error (msg, s, t) →
       state0After o sv mu state0 period0 fix tolDC n = s) := by
  constructor
  · intro p s f h
    unfold state0After
    rw [h]
  · intro msg s t h
    unfold state0After
    rw [h]

unseal Rat.inv Rat.mul Rat.add Rat.sub in
/-- C6 witness: the amended claim at a concrete run. -/
theorem C6_state0_aliased_holds_final_state_witness :
    state0After oW svW 1 stW 2 "period" 1 1 = stZero :=
  (C6_state0_aliased_holds_final_state oW svW 1 stW 2 "period" 1 1).1 2 stZero 0
    (by decide)

/-- C7: every iteration's residual is the ordered triple of components
{1, 3, 5} of the final state of that iteration's own propagation: the
convergence Boolean of each loop body equals the norm test on exactly those
components of the current propagation output, and the loop body's result
depends on the solver only through its value at that fresh residual — nothing
is carried over from a previous iteration. -/
theorem C7_residual_recomputed_fresh :
    (∀ (o : Oracle) (sv : Solver) (mu : ℚ) (fix : String) (tolDC : ℚ)
       (st : V6) (th : ℚ) (st' : V6) (th' : ℚ) (c : Bool),
       ssdcStep o sv mu fix tolDC st th = .ok (st', th', c) →
       c = normLtTol ![(o mu st th).statef 1, (o mu st th).statef 3,
                       (o mu st th).statef 5] tolDC) ∧
    (∀ (o : Oracle) (sv sv' : Solver) (mu : ℚ) (fix : String) (tolDC : ℚ)
       (st : V6) (th : ℚ),
       (∀ xi df, sv xi (ferrOf (o mu st th)) df = sv' xi (ferrOf (o mu st th)) df) →
       ssdcStep o sv mu fix tolDC st th = ssdcStep o sv' mu fix tolDC st th) := by
  constructor
  · intro o sv mu fix tolDC st th st' th' c h
    exact ssdcStep_conv o sv mu tolDC fix st th st' th' c h
  · intro o sv sv' mu fix tolDC st th h
    by_cases hz : fix = "z"
    · subst hz
      rw [ssdcStep_z, ssdcStep_z, h]
    · by_cases hp : fix = "period"
      · subst hp
        rw [ssdcStep_period, ssdcStep_period, h]
      · rw [ssdcStep_invalid o sv mu tolDC fix st th hz hp,
            ssdcStep_invalid o sv' mu tolDC fix st th hz hp]

unseal Rat.inv Rat.mul Rat.add Rat.sub in
/-- C7 witness: the two parts at a concrete oracle, solvers and state. -/
theorem C7_residual_recomputed_fresh_witness :
    (false = normLtTol ![(oW 1 stW 1).statef 1, (oW 1 stW 1).statef 3,
                         (oW 1 stW 1).statef 5] 1) ∧
    ssdcStep oW svW 1 "z" 1 stW 1 = ssdcStep oW svR 1 "z" 1 stW 1 :=
  ⟨C7_residual_recomputed_fresh.1 oW svW 1 "z" 1 stW 1 stZero 1 false (by decide),
   C7_residual_recomputed_fresh.2 oW svW svR 1 "z" 1 stW 1
     (fun xi df => by
       show _ = if ferrOf (oW 1 stW 1) 0 = 5 then _ else _
       rw [if_pos (by decide)]
       rfl)⟩

/-- C8: an initial state whose y-component exceeds 1e-9 in magnitude triggers
the warning but is not fatal: the warning Boolean is true, and the numerical
outcome of the call is computed by exactly the same loop as for any other
input — the threshold test influences no value used in the computation. -/
theorem C8_warning_not_fatal :
    (∀ (o : Oracle) (sv : Solver) (mu : ℚ) (state0 : V6) (period0 : ℚ)
       (fix : String) (tolDC : ℚ) (n : ℕ),
       (1 : ℚ) / 10 ^ 9 < |state0 1| →
       (ssdc_periodic_xzplane o sv mu state0 period0 fix tolDC n).1 = true) ∧
    (∀ (o : Oracle) (sv : Solver) (mu : ℚ) (state0 : V6) (period0 : ℚ)
       (fix : String) (tolDC : ℚ) (n : ℕ),
       (ssdc_periodic_xzplane o sv mu state0 period0 fix tolDC n).2 =
         ssdcLoop o sv mu fix tolDC n state0 (period0 / 2)) := by
  constructor
  · intro o sv mu state0 period0 fix tolDC n h
    exact decide_eq_true h
  · intro o sv mu state0 period0 fix tolDC n
    rfl

unseal Rat.inv Rat.mul Rat.add Rat.sub in
/-- C8 witness: an initial state with y = 1e-6 (above the 1e-9 threshold)
fires the warning while the numeric result is the threshold-free loop. -/
theorem C8_warning_not_fatal_witness :
    (ssdc_periodic_xzplane oW svW 1 stY 2 "z" 1 1).1 = true ∧
    (ssdc_periodic_xzplane oW svW 1 stY 2 "z" 1 1).2 =
      ssdcLoop oW svW 1 "z" 1 1 stY (2 / 2) :=
  ⟨C8_warning_not_fatal.1 oW svW 1 stY 2 "z" 1 1 (by decide),
   C8_warning_not_fatal.2 oW svW 1 stY 2 "z" 1 1⟩

/-- C9: an unrecognized `fix` string is never rejected up front: with at least
one iteration the run raises the unbound-variable `NameError` during its first
iteration (the error carries the still-untouched buffer and half-period),
while with `iter_max = 0` the invalid mode is accepted silently and the call
returns `(period0, state0, 0)` with no error. -/
theorem C9_invalid_fix_first_iteration_error (o : Oracle) (sv : Solver)
    (mu : ℚ) (state0 : V6) (period0 tolDC : ℚ) (fix : String)
    (h1 : fix ≠ "z") (h2 : fix ≠ "period") :
    (∀ n : ℕ, 1 ≤ n →
      (ssdc_periodic_xzplane o sv mu state0 period0 fix tolDC n).2 =
        .error ("NameError: name 'xi' is not defined", state0, period0 / 2)) ∧
    (ssdc_periodic_xzplane o sv mu state0 period0 fix tolDC 0).2 =
      .ok (period0, state0, 0) := by
  constructor
  · intro n hn
    obtain ⟨m, rfl⟩ := Nat.exists_eq_add_of_le hn
    show ssdcLoop o sv mu fix tolDC (1 + m) state0 (period0 / 2) = _
    rw [Nat.add_comm 1 m]
    exact ssdcLoop_succ_err o sv mu tolDC fix m state0 (period0 / 2) _
      (ssdcStep_invalid o sv mu tolDC fix state0 (period0 / 2) h1 h2)
  · show Except.ok (period0 / 2 * 2, state0, 0) = _
    rw [div_mul_cancel₀ period0 (two_ne_zero)]

/-- C9 witness: a concrete invalid mode string, with one iteration and with
zero iterations. -/
theorem C9_invalid_fix_first_iteration_error_witness :
    ((ssdc_periodic_xzplane oW svW 1 stW 2 "x0" 1 1).2 =
       .error ("NameError: name 'xi' is not defined", stW, 2 / 2)) ∧
    (ssdc_periodic_xzplane oW svW 1 stW 2 "x0" 1 0).2 = .ok (2, stW, 0) :=
  ⟨(C9_invalid_fix_first_iteration_error oW svW 1 stW 2 1 "x0" (by decide)
      (by decide)).1 1 (by decide),
   (C9_invalid_fix_first_iteration_error oW svW 1 stW 2 1 "x0" (by decide)
      (by decide)).2⟩

theorem crossK1 : cross3 ![(1 : ℝ), 0, 0] ![0, 2, 0] = ![0, 0, 2] := by
  funext i
  fin_cases i <;> norm_num [cross3]

theorem crossK2 : cross3 ![(0 : ℝ), 2, 0] ![0, 0, 2] = ![4, 0, 0] := by
  funext i
  fin_cases i <;> norm_num [cross3]

theorem norm3_r1 : norm3 ![(1 : ℝ), 0, 0] = 1 := by
  show Real.sqrt ((1 : ℝ) ^ 2 + 0 ^ 2 + 0 ^ 2) = 1
  rw [show (1 : ℝ) ^ 2 + 0 ^ 2 + 0 ^ 2 = 1 ^ 2 by norm_num,
      Real.sqrt_sq (by norm_num)]

theorem norm3_h2 : norm3 ![(0 : ℝ), 0, 2] = 2 := by
  show Real.sqrt ((0 : ℝ) ^ 2 + 0 ^ 2 + 2 ^ 2) = 2
  rw [show (0 : ℝ) ^ 2 + 0 ^ 2 + 2 ^ 2 = 2 ^ 2 by norm_num,
      Real.sqrt_sq (by norm_num)]

theorem norm3_e3 : norm3 ![(3 : ℝ), 0, 0] = 3 := by
  show Real.sqrt ((3 : ℝ) ^ 2 + 0 ^ 2 + 0 ^ 2) = 3
  rw [show (3 : ℝ) ^ 2 + 0 ^ 2 + 0 ^ 2 = 3 ^ 2 by norm_num,
      Real.sqrt_sq (by norm_num)]

theorem eccK : get_eccentricity stK 1 = ![3, 0, 0] := by
  funext i
  show (1 / 1) * cross3 ![(0 : ℝ), 2, 0] (cross3 ![(1 : ℝ), 0, 0] ![0, 2, 0]) i -
      ![(1 : ℝ), 0, 0] i / norm3 ![(1 : ℝ), 0, 0] = ![(3 : ℝ), 0, 0] i
  rw [crossK1, crossK2, norm3_r1]
  fin_cases i <;> norm_num

theorem semiMajorAxis_stK : get_semiMajorAxis stK 1 = -(1 / 2) := by
  show norm3 (cross3 ![(1 : ℝ), 0, 0] ![0, 2, 0]) ^ 2 /
      (1 * (1 - norm3 (get_eccentricity stK 1) ^ 2)) = -(1 / 2)
  rw [crossK1, norm3_h2, eccK, norm3_e3]
  norm_num

/-- C10: `get_period` returns the sentinel -1 whenever the semi-major axis
computed by `get_semiMajorAxis` is negative (an unbound orbit), and returns
`2*pi*sqrt(a^3/mu)` otherwise; both branches are total, so nothing is raised
for a negative semi-major axis. -/
theorem C10_get_period_sentinel :
    (∀ (state : Fin 6 → ℝ) (mu : ℝ),
       get_semiMajorAxis state mu < 0 → get_period state mu = -1) ∧
    (∀ (state : Fin 6 → ℝ) (mu : ℝ),
       ¬ get_semiMajorAxis state mu < 0 →
       get_period state mu =
         2 * Real.pi * Real.sqrt (get_semiMajorAxis state mu ^ 3 / mu)) := by
  constructor
  · intro state mu h
    unfold get_period
    rw [if_pos h]
  · intro state mu h
    unfold get_period
    rw [if_neg h]

/-- C10 witness: a concrete hyperbolic state (semi-major axis -1/2) for which
`get_period` evaluates to the sentinel -1. -/
theorem C10_get_period_sentinel_witness : get_period stK 1 = -1 :=
  C10_get_period_sentinel.1 stK 1 (by rw [semiMajorAxis_stK]; norm_num)
